import Mathlib

/-!
Shallow embedding of `src/todo.py` (a file-backed todo-list manager).

The Python module has two classes:

* `TodoItem` — a record with fields `id`, `title`, `description`,
  `due_date` (an optional string), `priority` (an integer, 1/2/3 meaning
  High/Medium/Low, but unvalidated) and `completed`.  It serializes to /
  deserializes from a dict (`to_dict` / `from_dict`) and renders to a
  string (`__str__`, embedded here as `TodoItem.str`, which can raise a
  `KeyError` when `priority` is outside the priority map).

* `TodoList` — an ordered list of `TodoItem` plus a `next_id` counter.
  Mutating operations (`add_item`, `remove_item`, `complete_item`) are
  embedded as pure state-passing functions; the persistence layer
  (`save_data` / `load_data`) is embedded over an abstract `Store` that is
  either missing, unparseable as JSON, or a parsed top-level object whose
  `todos` / `next_id` keys may each be absent.  Python dict access
  `data["k"]` raises `KeyError` when the key is absent; this is embedded
  with `Except PyError`.  The field types themselves follow the storage
  format (ids and priorities are integers, titles are strings, and so on).
-/

set_option maxRecDepth 4000

namespace Todo

/-- The in-memory item record (`TodoItem.__init__` fields). -/
structure TodoItem where
  id : Int
  title : String
  description : String
  due_date : Option String
  priority : Int
  completed : Bool
deriving DecidableEq, Repr

/-- A serialized item record: each key of the dict produced/consumed by
`to_dict` / `from_dict` may be present (`some`) or absent (`none`).
The `due_date` key can be present and hold JSON `null`, hence
`Option (Option String)`. -/
structure ItemDict where
  id? : Option Int
  title? : Option String
  description? : Option String
  due_date? : Option (Option String)
  priority? : Option Int
  completed? : Option Bool
deriving DecidableEq, Repr

/-- The top-level dict of the storage file: keys `todos` and `next_id`,
each possibly absent. -/
structure DataDict where
  todos? : Option (List ItemDict)
  next_id? : Option Int
deriving DecidableEq, Repr

/-- The backing store as `load_data` distinguishes it: the file does not
exist (`os.path.exists` false), it exists but `json.load` raises
`json.JSONDecodeError`, or it parses to a top-level object. -/
inductive Store where
  | missing : Store
  | malformed : Store
  | parsed : DataDict → Store
deriving DecidableEq, Repr

/-- Python exceptions that the embedded code can raise: `KeyError` on a
dict with a string key (`data["todos"]`, `data["id"]`, ...) and
`KeyError` on the integer-keyed priority map in `__str__`. -/
inductive PyError where
  | keyError : String → PyError
  | keyErrorInt : Int → PyError
deriving DecidableEq, Repr

/-- `TodoItem.to_dict`: every key is emitted (the `due_date` key is
present even when its value is `None`/null). -/
def TodoItem.to_dict (it : TodoItem) : ItemDict :=
  { id? := some it.id
    title? := some it.title
    description? := some it.description
    due_date? := some it.due_date
    priority? := some it.priority
    completed? := some it.completed }

/-- `TodoItem.from_dict`: `data["id"]` and `data["title"]` are required
(absence raises `KeyError`); the rest use `data.get` with defaults
`""`, `None`, `3`, `False`. -/
def TodoItem.from_dict (d : ItemDict) : Except PyError TodoItem :=
  match d.id? with
  | none => .error (.keyError "id")
  | some i =>
    match d.title? with
    | none => .error (.keyError "title")
    | some t =>
      .ok { id := i
            title := t
            description := d.description?.getD ""
            due_date := d.due_date?.getD none
            priority := d.priority?.getD 3
            completed := d.completed?.getD false }

/-- The `priority_map = {1: "High", 2: "Medium", 3: "Low"}` dict of
`TodoItem.__str__`; `none` corresponds to a key that raises `KeyError`. -/
def priority_map (p : Int) : Option String :=
  if p = 1 then some "High"
  else if p = 2 then some "Medium"
  else if p = 3 then some "Low"
  else none

/-- `TodoItem.__str__`.  Python's `if self.due_date` is falsy both for
`None` and for the empty string.  `priority_map[self.priority]` raises
`KeyError` when the priority is not a key of the map. -/
def TodoItem.str (it : TodoItem) : Except PyError String :=
  let status := if it.completed then "✓" else "✗"
  let due :=
    match it.due_date with
    | none => ""
    | some d => if d = "" then "" else " | Due: " ++ d
  match priority_map it.priority with
  | none => .error (.keyErrorInt it.priority)
  | some label =>
    .ok (toString it.id ++ ". [" ++ status ++ "] " ++ it.title ++ due
      ++ " | Priority: " ++ label ++ "\n   " ++ it.description)

/-- The mutable state of a `TodoList`: the owned item sequence and the
`next_id` counter. -/
structure TodoList where
  todos : List TodoItem
  next_id : Int
deriving DecidableEq, Repr

/-- The state `TodoList.__init__` sets up before calling `load_data`. -/
def TodoList.initState : TodoList := { todos := [], next_id := 1 }

/-- `TodoList.add_item`: build `TodoItem(next_id, title, description,
due_date, priority)` (so `completed` defaults to `False`), append it,
increment `next_id`, return the created item together with the new
state.  (`save_data` is a pure write of the state and does not change
it.) -/
def TodoList.add_item (st : TodoList) (title description : String)
    (due_date : Option String) (priority : Int) : TodoItem × TodoList :=
  let new_item : TodoItem :=
    { id := st.next_id, title := title, description := description
      due_date := due_date, priority := priority, completed := false }
  (new_item, { todos := st.todos ++ [new_item], next_id := st.next_id + 1 })

/-- The loop of `TodoList.remove_item`: pop the first item whose id
matches, returning the remaining list, or `none` when no item matches. -/
def removeFirst (i : Int) : List TodoItem → Option (List TodoItem)
  | [] => none
  | x :: xs =>
    if x.id = i then some xs
    else (removeFirst i xs).map (fun l => x :: l)

/-- `TodoList.remove_item`: returns the boolean result and the new state. -/
def TodoList.remove_item (st : TodoList) (i : Int) : Bool × TodoList :=
  match removeFirst i st.todos with
  | some l => (true, { todos := l, next_id := st.next_id })
  | none => (false, st)

/-- The loop of `TodoList.complete_item`: set `completed = True` on the
first item whose id matches (the loop returns immediately after), or
`none` when no item matches. -/
def completeFirst (i : Int) : List TodoItem → Option (List TodoItem)
  | [] => none
  | x :: xs =>
    if x.id = i then some ({ x with completed := true } :: xs)
    else (completeFirst i xs).map (fun l => x :: l)

/-- `TodoList.complete_item`: returns the boolean result and the new state. -/
def TodoList.complete_item (st : TodoList) (i : Int) : Bool × TodoList :=
  match completeFirst i st.todos with
  | some l => (true, { todos := l, next_id := st.next_id })
  | none => (false, st)

/-- `TodoList.get_item`: the first item whose id matches, or `None`. -/
def TodoList.get_item (st : TodoList) (i : Int) : Option TodoItem :=
  st.todos.find? (fun it => it.id == i)

/-- `TodoList.list_items`: all items when `show_completed`, otherwise the
incomplete ones, in order. -/
def TodoList.list_items (st : TodoList) (show_completed : Bool) : List TodoItem :=
  if show_completed then st.todos
  else st.todos.filter (fun it => !it.completed)

/-- `TodoList.save_data`: write `{"todos": [item.to_dict() ...],
"next_id": next_id}` as the store contents. -/
def TodoList.save_data (st : TodoList) : Store :=
  .parsed { todos? := some (st.todos.map TodoItem.to_dict)
            next_id? := some st.next_id }

/-- The list comprehension `[TodoItem.from_dict(item) for item in
data["todos"]]`: items are deserialized left to right and the first
`KeyError` propagates. -/
def fromDictList : List ItemDict → Except PyError (List TodoItem)
  | [] => .ok []
  | d :: ds =>
    match TodoItem.from_dict d with
    | .error e => .error e
    | .ok it =>
      match fromDictList ds with
      | .error e => .error e
      | .ok its => .ok (it :: its)

/-- `TodoList.load_data`, run on the state `__init__` just set up
(`todos = []`, `next_id = 1`): a missing file returns early with that
state; `json.JSONDecodeError` (and `FileNotFoundError`) are caught and
reset the state to `todos = []`, `next_id = 1`; any other exception —
`KeyError` from `data["todos"]`, from `from_dict`, or from
`data["next_id"]` — propagates to the caller of the constructor. -/
def load_data : Store → Except PyError TodoList
  | .missing => .ok TodoList.initState
  | .malformed => .ok { todos := [], next_id := 1 }
  | .parsed data =>
    match data.todos? with
    | none => .error (.keyError "todos")
    | some ds =>
      match fromDictList ds with
      | .error e => .error e
      | .ok todos =>
        match data.next_id? with
        | none => .error (.keyError "next_id")
        | some n => .ok { todos := todos, next_id := n }

/-- A sequence of mutating calls on a `TodoList`: the `add_item` and
`remove_item` operations of the source, with their arguments. -/
inductive Op where
  | add : String → String → Option String → Int → Op
  | remove : Int → Op
deriving DecidableEq, Repr

/-- The number of `add` calls in a call sequence. -/
def countAdds : List Op → Nat
  | [] => 0
  | Op.add _ _ _ _ :: ops => countAdds ops + 1
  | Op.remove _ :: ops => countAdds ops

/-- Run a call sequence from a state, collecting the ids of the items
returned by the `add_item` calls, in call order. -/
def runOps : TodoList → List Op → TodoList × List Int
  | st, [] => (st, [])
  | st, Op.add t d dd p :: ops =>
    let r := st.add_item t d dd p
    let rest := runOps r.2 ops
    (rest.1, r.1.id :: rest.2)
  | st, Op.remove i :: ops => runOps (st.remove_item i).2 ops

/-- The ids `runOps` collects, computed from the starting counter alone:
each `add` issues the current counter and increments it, each `remove`
leaves the counter alone. -/
def idsFrom : Int → List Op → List Int
  | _, [] => []
  | n, Op.add _ _ _ _ :: ops => n :: idsFrom (n + 1) ops
  | n, Op.remove _ :: ops => idsFrom n ops

/-- Sample items for concrete evaluations. -/
def sampleA : TodoItem :=
  { id := 1, title := "a", description := "", due_date := none
    priority := 3, completed := false }

def sampleB : TodoItem :=
  { id := 2, title := "b", description := "", due_date := none
    priority := 2, completed := true }

/-- A second item that shares `sampleA`'s id, for duplicate-id states. -/
def sampleDup : TodoItem :=
  { id := 1, title := "dup", description := "", due_date := none
    priority := 3, completed := false }

/-! ### Helper lemmas -/

theorem remove_item_next_id (st : TodoList) (i : Int) :
    (st.remove_item i).2.next_id = st.next_id := by
  unfold TodoList.remove_item
  cases removeFirst i st.todos <;> rfl

theorem runOps_next_id : ∀ (ops : List Op) (st : TodoList),
    (runOps st ops).1.next_id = st.next_id + (countAdds ops : Int)
  | [], st => by simp [runOps, countAdds]
  | Op.add t d dd p :: ops, st => by
      have ih := runOps_next_id ops (st.add_item t d dd p).2
      simp only [runOps, countAdds] at ih ⊢
      rw [ih]
      simp [TodoList.add_item]
      ring
  | Op.remove i :: ops, st => by
      have ih := runOps_next_id ops (st.remove_item i).2
      simp only [runOps, countAdds] at ih ⊢
      rw [ih, remove_item_next_id]

theorem runOps_ids : ∀ (ops : List Op) (st : TodoList),
    (runOps st ops).2 = idsFrom st.next_id ops
  | [], st => rfl
  | Op.add t d dd p :: ops, st => by
      have ih := runOps_ids ops (st.add_item t d dd p).2
      simp only [runOps, idsFrom]
      rw [ih]
      rfl
  | Op.remove i :: ops, st => by
      have ih := runOps_ids ops (st.remove_item i).2
      simp only [runOps, idsFrom]
      rw [ih, remove_item_next_id]

theorem idsFrom_mem : ∀ (ops : List Op) (n j : Int),
    j ∈ idsFrom n ops → n ≤ j ∧ j < n + (countAdds ops : Int)
  | [], n, j => by simp [idsFrom]
  | Op.add t d dd p :: ops, n, j => by
      intro hj
      simp only [idsFrom, List.mem_cons] at hj
      rcases hj with rfl | hj
      · constructor
        · exact le_refl j
        · have : (0 : Int) < (countAdds (Op.add t d dd p :: ops) : Int) := by
            simp [countAdds]
          omega
      · have := idsFrom_mem ops (n + 1) j hj
        simp only [countAdds] at this ⊢
        push_cast at this ⊢
        omega
  | Op.remove i :: ops, n, j => by
      intro hj
      have := idsFrom_mem ops n j hj
      simpa [countAdds] using this

theorem idsFrom_chain : ∀ (ops : List Op) (n : Int),
    List.Chain' (· < ·) (idsFrom n ops)
  | [], n => List.chain'_nil
  | Op.add t d dd p :: ops, n => by
      simp only [idsFrom]
      rw [List.chain'_cons']
      refine ⟨?_, idsFrom_chain ops (n + 1)⟩
      intro y hy
      have hmem : y ∈ idsFrom (n + 1) ops := by
        cases h : idsFrom (n + 1) ops with
        | nil => simp [h] at hy
        | cons a l => simp [h] at hy; simp [h, hy]
      have := idsFrom_mem ops (n + 1) y hmem
      omega
  | Op.remove i :: ops, n => idsFrom_chain ops n

theorem idsFrom_head : ∀ (ops : List Op) (n : Int),
    (idsFrom n ops).head?.getD n = n
  | [], _ => rfl
  | Op.add _ _ _ _ :: _, _ => rfl
  | Op.remove _ :: ops, n => idsFrom_head ops n

theorem removeFirst_eq_none_iff (i : Int) : ∀ l : List TodoItem,
    removeFirst i l = none ↔ ∀ x ∈ l, x.id ≠ i
  | [] => by simp [removeFirst]
  | x :: xs => by
      by_cases hx : x.id = i
      · simp [removeFirst, hx]
      · simp [removeFirst, hx, removeFirst_eq_none_iff i xs]

theorem removeFirst_append (i : Int) (l : List TodoItem) :
    ∀ pre : List TodoItem, (∀ y ∈ pre, y.id ≠ i) →
    removeFirst i (pre ++ l) = (removeFirst i l).map (fun l' => pre ++ l')
  | [], _ => by simp
  | y :: pre, hpre => by
      have hy : y.id ≠ i := hpre y (List.mem_cons_self y pre)
      have ih := removeFirst_append i l pre (fun z hz => hpre z (List.mem_cons_of_mem y hz))
      simp only [List.cons_append, removeFirst, hy, if_false, List.append_eq, ih,
        Option.map_map]
      rfl

theorem removeFirst_first_match (i : Int) (pre post : List TodoItem) (x : TodoItem)
    (hpre : ∀ y ∈ pre, y.id ≠ i) (hx : x.id = i) :
    removeFirst i (pre ++ x :: post) = some (pre ++ post) := by
  rw [removeFirst_append i (x :: post) pre hpre]
  simp [removeFirst, hx]

theorem completeFirst_eq_none_iff (i : Int) : ∀ l : List TodoItem,
    completeFirst i l = none ↔ ∀ x ∈ l, x.id ≠ i
  | [] => by simp [completeFirst]
  | x :: xs => by
      by_cases hx : x.id = i
      · simp [completeFirst, hx]
      · simp [completeFirst, hx, completeFirst_eq_none_iff i xs]

theorem completeFirst_append (i : Int) (l : List TodoItem) :
    ∀ pre : List TodoItem, (∀ y ∈ pre, y.id ≠ i) →
    completeFirst i (pre ++ l) = (completeFirst i l).map (fun l' => pre ++ l')
  | [], _ => by simp
  | y :: pre, hpre => by
      have hy : y.id ≠ i := hpre y (List.mem_cons_self y pre)
      have ih := completeFirst_append i l pre (fun z hz => hpre z (List.mem_cons_of_mem y hz))
      simp only [List.cons_append, completeFirst, hy, if_false, List.append_eq, ih,
        Option.map_map]
      rfl

theorem completeFirst_first_match (i : Int) (pre post : List TodoItem) (x : TodoItem)
    (hpre : ∀ y ∈ pre, y.id ≠ i) (hx : x.id = i) :
    completeFirst i (pre ++ x :: post) =
      some (pre ++ { x with completed := true } :: post) := by
  rw [completeFirst_append i (x :: post) pre hpre]
  simp [completeFirst, hx]

theorem find?_first_match (i : Int) (post : List TodoItem) (x : TodoItem)
    (hx : x.id = i) : ∀ pre : List TodoItem, (∀ y ∈ pre, y.id ≠ i) →
    (pre ++ x :: post).find? (fun it => it.id == i) = some x
  | [], _ => by simp [List.find?, hx]
  | y :: pre, hpre => by
      have hy : y.id ≠ i := hpre y (List.mem_cons_self y pre)
      have hbeq : (y.id == i) = false := by simpa using hy
      have ih := find?_first_match i post x hx pre
        (fun z hz => hpre z (List.mem_cons_of_mem y hz))
      simp only [List.cons_append, List.find?, hbeq, List.append_eq]
      exact ih

/-- Every list with a match for `i` splits at its first match. -/
theorem exists_first_decomp (i : Int) : ∀ l : List TodoItem,
    (∃ x ∈ l, x.id = i) →
    ∃ pre x post, l = pre ++ x :: post ∧ (∀ y ∈ pre, y.id ≠ i) ∧ x.id = i
  | [] => by simp
  | y :: ys => by
      intro hex
      by_cases hy : y.id = i
      · exact ⟨[], y, ys, rfl, by simp, hy⟩
      · have hex' : ∃ x ∈ ys, x.id = i := by
          rcases hex with ⟨x, hx, hxi⟩
          rcases List.mem_cons.mp hx with rfl | hx'
          · exact absurd hxi hy
          · exact ⟨x, hx', hxi⟩
        rcases exists_first_decomp i ys hex' with ⟨pre, x, post, hys, hpre, hxi⟩
        refine ⟨y :: pre, x, post, by rw [hys]; rfl, ?_, hxi⟩
        intro z hz
        rcases List.mem_cons.mp hz with rfl | hz'
        · exact hy
        · exact hpre z hz'

/-- Deserializing a serialized item gives the item back. -/
theorem from_dict_to_dict (it : TodoItem) :
    TodoItem.from_dict it.to_dict = .ok it := rfl

/-- Deserializing a serialized item list gives the list back. -/
theorem fromDictList_map_to_dict (l : List TodoItem) :
    fromDictList (l.map TodoItem.to_dict) = .ok l := by
  induction l with
  | nil => rfl
  | cons x xs ih => simp [fromDictList, from_dict_to_dict, ih]

/-! ### Claim theorems -/

/-- C2: saving a `TodoList` and then loading it yields the same item
sequence (same ids, titles, descriptions, due dates, priorities,
completion flags, in the same order) and the same `next_id`: loading
after saving succeeds and is the identity on every list state. -/
theorem load_after_save_id (st : TodoList) :
    load_data st.save_data = .ok st := by
  simp [TodoList.save_data, load_data, fromDictList_map_to_dict]

/-- C7: `add_item` returns the item built from the current `next_id` with
`completed = false` and the given fields, appends exactly that item at
the end of the sequence (all existing items unchanged, in order), and
increments `next_id` by one; it never fails (it is a total function). -/
theorem add_item_spec (st : TodoList) (title description : String)
    (due_date : Option String) (priority : Int) :
    (st.add_item title description due_date priority).1 =
      { id := st.next_id, title := title, description := description
        due_date := due_date, priority := priority, completed := false } ∧
    (st.add_item title description due_date priority).2.todos =
      st.todos ++ [(st.add_item title description due_date priority).1] ∧
    (st.add_item title description due_date priority).2.next_id = st.next_id + 1 :=
  ⟨rfl, rfl, rfl⟩

/-- C6: `list_items` with `show_completed = true` returns every owned item
in order; with `show_completed = false` it returns a subsequence of the
owned items (insertion order preserved) whose members are exactly the
items with `completed = false` — in particular it never contains a
completed item. -/
theorem list_items_spec (st : TodoList) :
    st.list_items true = st.todos ∧
    (st.list_items false).Sublist st.todos ∧
    (∀ x ∈ st.list_items false, x.completed = false) ∧
    (∀ x, x ∈ st.list_items false ↔ x ∈ st.todos ∧ x.completed = false) := by
  refine ⟨rfl, ?_, ?_, ?_⟩
  · exact List.filter_sublist st.todos
  · intro x hx
    simpa using (List.of_mem_filter hx)
  · intro x
    simp [TodoList.list_items]

/-- C6 witness: evaluation on a concrete two-item state, one completed. -/
theorem list_items_spec_witness :
    let st : TodoList :=
      { todos := [{ id := 1, title := "a", description := "", due_date := none
                    priority := 1, completed := true },
                  { id := 2, title := "b", description := "", due_date := none
                    priority := 3, completed := false }]
        next_id := 3 }
    st.list_items true = st.todos ∧
    (st.list_items false).Sublist st.todos ∧
    (∀ x ∈ st.list_items false, x.completed = false) ∧
    (∀ x, x ∈ st.list_items false ↔ x ∈ st.todos ∧ x.completed = false) :=
  list_items_spec _

/-- C8: deserializing a record whose `id` and `title` keys are present
succeeds and applies the documented defaults for each absent optional
key — `description` becomes `""`, `due_date` becomes absent, `priority`
becomes `3`, `completed` becomes `false` — while every present key is
taken verbatim (`Option.getD` of a present key is its value). -/
theorem from_dict_defaults (d : ItemDict) (i : Int) (t : String)
    (hid : d.id? = some i) (htitle : d.title? = some t) :
    TodoItem.from_dict d =
      .ok { id := i, title := t
            description := d.description?.getD ""
            due_date := d.due_date?.getD none
            priority := d.priority?.getD 3
            completed := d.completed?.getD false } := by
  simp [TodoItem.from_dict, hid, htitle]

/-- C8 witness: a record with only `id` and `title` present deserializes
to the fully defaulted item. -/
theorem from_dict_defaults_witness :
    TodoItem.from_dict
        { id? := some 7, title? := some "t", description? := none
          due_date? := none, priority? := none, completed? := none } =
      .ok { id := 7, title := "t", description := "", due_date := none
            priority := 3, completed := false } :=
  from_dict_defaults _ 7 "t" rfl rfl

/-- C1 counterexample: a store that parses as JSON but is missing
required structure does NOT yield an empty list with `next_id = 1`; the
constructor raises a `KeyError`.  Three concrete stores: one without the
`todos` key, one whose single item record lacks `id`, and one without
the `next_id` key. -/
theorem load_missing_structure_raises :
    load_data (Store.parsed { todos? := none, next_id? := some 1 }) =
      .error (.keyError "todos") ∧
    load_data (Store.parsed
        { todos? := some [{ id? := none, title? := some "t", description? := none
                            due_date? := none, priority? := none, completed? := none }]
          next_id? := some 1 }) = .error (.keyError "id") ∧
    load_data (Store.parsed { todos? := some [], next_id? := none }) =
      .error (.keyError "next_id") ∧
    load_data (Store.parsed { todos? := none, next_id? := some 1 }) ≠
      .ok { todos := [], next_id := 1 } := by
  refine ⟨rfl, rfl, rfl, ?_⟩
  intro h
  exact Except.noConfusion h

/-- C1 amended: constructing a `TodoList` from a missing store or from a
store that cannot be parsed as JSON yields an empty list with
`next_id = 1` and surfaces no error; but a store that parses while
missing required structure raises a `KeyError` to the caller: a missing
`todos` key raises `KeyError "todos"`, an item record without `id`
(resp. with `id` but without `title`) makes deserialization raise
`KeyError "id"` (resp. `KeyError "title"`), which `load_data`
propagates, and a missing `next_id` key raises `KeyError "next_id"`. -/
theorem load_data_amended :
    load_data Store.missing = .ok { todos := [], next_id := 1 } ∧
    load_data Store.malformed = .ok { todos := [], next_id := 1 } ∧
    (∀ d : DataDict, d.todos? = none →
      load_data (Store.parsed d) = .error (.keyError "todos")) ∧
    (∀ (d : DataDict) (ds : List ItemDict) (e : PyError),
      d.todos? = some ds → fromDictList ds = .error e →
      load_data (Store.parsed d) = .error e) ∧
    (∀ r : ItemDict, r.id? = none →
      TodoItem.from_dict r = .error (.keyError "id")) ∧
    (∀ (r : ItemDict) (i : Int), r.id? = some i → r.title? = none →
      TodoItem.from_dict r = .error (.keyError "title")) ∧
    (∀ (d : DataDict) (ds : List ItemDict) (l : List TodoItem),
      d.todos? = some ds → fromDictList ds = .ok l → d.next_id? = none →
      load_data (Store.parsed d) = .error (.keyError "next_id")) := by
  refine ⟨rfl, rfl, ?_, ?_, ?_, ?_, ?_⟩
  · intro d hd
    simp [load_data, hd]
  · intro d ds e hd he
    simp [load_data, hd, he]
  · intro r hr
    simp [TodoItem.from_dict, hr]
  · intro r i hri hrt
    simp [TodoItem.from_dict, hri, hrt]
  · intro d ds l hd hds hn
    simp [load_data, hd, hds, hn]

/-- C1 amended, witness: concrete instances of each structural-failure
branch and of the two recovery branches. -/
theorem load_data_amended_witness :
    load_data Store.missing = .ok { todos := [], next_id := 1 } ∧
    load_data (Store.parsed { todos? := none, next_id? := some 2 }) =
      .error (.keyError "todos") ∧
    load_data (Store.parsed { todos? := some [], next_id? := none }) =
      .error (.keyError "next_id") ∧
    TodoItem.from_dict { id? := some 1, title? := none, description? := none
                         due_date? := none, priority? := none, completed? := none } =
      .error (.keyError "title") :=
  ⟨load_data_amended.1,
   load_data_amended.2.2.1 _ rfl,
   load_data_amended.2.2.2.2.2.2 _ [] [] rfl rfl rfl,
   load_data_amended.2.2.2.2.2.1 _ 1 rfl rfl⟩

/-- C3: starting from a fresh list (`todos = []`, `next_id = 1`), for
every sequence of `add_item` calls interleaved with `remove_item` calls,
the ids returned by the successive adds are strictly increasing, the
first one issued is 1, every issued id is at least 1 and strictly below
the final `next_id` (so `next_id` exceeds every id ever issued, and —
since the whole sequence of calls is universally quantified — the same
holds after every prefix of the calls), and no issued id is ever
repeated, removals notwithstanding. -/
theorem add_ids_strictly_increasing (ops : List Op) :
    List.Chain' (· < ·) (runOps TodoList.initState ops).2 ∧
    (runOps TodoList.initState ops).2.head?.getD 1 = 1 ∧
    (∀ j ∈ (runOps TodoList.initState ops).2,
      1 ≤ j ∧ j < (runOps TodoList.initState ops).1.next_id) ∧
    (runOps TodoList.initState ops).2.Nodup := by
  have hids : (runOps TodoList.initState ops).2 = idsFrom 1 ops :=
    runOps_ids ops TodoList.initState
  have hchain : List.Chain' (· < ·) (runOps TodoList.initState ops).2 := by
    rw [hids]; exact idsFrom_chain ops 1
  refine ⟨hchain, ?_, ?_, ?_⟩
  · rw [hids]; exact idsFrom_head ops 1
  · intro j hj
    rw [hids] at hj
    have hm := idsFrom_mem ops 1 j hj
    have hn : (runOps TodoList.initState ops).1.next_id =
        1 + (countAdds ops : Int) := runOps_next_id ops TodoList.initState
    omega
  · have hp : (runOps TodoList.initState ops).2.Pairwise (· < ·) :=
      List.chain'_iff_pairwise.mp hchain
    exact hp.nodup

/-- C3 witness: a concrete call sequence — add, remove the issued item,
add again — issues ids 1 then 2. -/
theorem add_ids_strictly_increasing_witness :
    List.Chain' (· < ·) (runOps TodoList.initState
      [Op.add "a" "" none 1, Op.remove 1, Op.add "b" "x" none 3]).2 ∧
    (runOps TodoList.initState
      [Op.add "a" "" none 1, Op.remove 1, Op.add "b" "x" none 3]).2.head?.getD 1 = 1 ∧
    (∀ j ∈ (runOps TodoList.initState
      [Op.add "a" "" none 1, Op.remove 1, Op.add "b" "x" none 3]).2,
      1 ≤ j ∧ j < (runOps TodoList.initState
        [Op.add "a" "" none 1, Op.remove 1, Op.add "b" "x" none 3]).1.next_id) ∧
    (runOps TodoList.initState
      [Op.add "a" "" none 1, Op.remove 1, Op.add "b" "x" none 3]).2.Nodup :=
  add_ids_strictly_increasing _

/-- C4 counterexample: on a list state holding two items with id 1
(reachable by loading a store with duplicate ids), `remove_item 1`
returns true but a subsequent `get_item 1` is NOT absent: it finds the
remaining duplicate. -/
theorem remove_then_get_counterexample :
    (TodoList.remove_item { todos := [sampleA, sampleDup], next_id := 2 } 1).1 = true ∧
    (TodoList.remove_item { todos := [sampleA, sampleDup], next_id := 2 } 1).2.get_item 1 =
      some sampleDup ∧
    (TodoList.remove_item { todos := [sampleA, sampleDup], next_id := 2 } 1).2.get_item 1 ≠
      none :=
  ⟨rfl, rfl, Option.some_ne_none sampleDup⟩

/-- C4 amended: for every list state whose item ids are pairwise
distinct, and every id: if an item with that id is present, `remove_item`
deletes it — the remaining items are exactly the others, ids unchanged
and in order — returns true, and a subsequent `get_item` yields `none`;
if no item with that id is present, `remove_item` returns false and the
state (items and `next_id`) is unchanged.  (Distinctness is needed:
states with duplicate ids are reachable by loading a store with
duplicates, and there removal deletes only the first match.) -/
theorem remove_item_spec (st : TodoList) (i : Int)
    (hnd : (st.todos.map TodoItem.id).Nodup) :
    ((∃ x ∈ st.todos, x.id = i) →
      ∃ pre x post, st.todos = pre ++ x :: post ∧ x.id = i ∧
        st.remove_item i =
          (true, { todos := pre ++ post, next_id := st.next_id }) ∧
        (st.remove_item i).2.get_item i = none) ∧
    ((∀ x ∈ st.todos, x.id ≠ i) → st.remove_item i = (false, st)) := by
  constructor
  · intro hex
    rcases exists_first_decomp i st.todos hex with ⟨pre, x, post, hsplit, hpre, hx⟩
    have hrf : removeFirst i st.todos = some (pre ++ post) := by
      rw [hsplit]; exact removeFirst_first_match i pre post x hpre hx
    have hrem : st.remove_item i =
        (true, { todos := pre ++ post, next_id := st.next_id }) := by
      simp [TodoList.remove_item, hrf]
    have hpost : ∀ y ∈ post, y.id ≠ i := by
      have hnd' := hnd
      rw [hsplit, List.map_append, List.map_cons] at hnd'
      have hxt : (x.id :: post.map TodoItem.id).Nodup := hnd'.of_append_right
      have hxnot : x.id ∉ post.map TodoItem.id := (List.nodup_cons.mp hxt).1
      intro y hy hyi
      exact hxnot (List.mem_map.mpr ⟨y, hy, by rw [hyi, hx]⟩)
    refine ⟨pre, x, post, hsplit, hx, hrem, ?_⟩
    rw [hrem]
    simp only [TodoList.get_item]
    rw [List.find?_eq_none]
    intro y hy
    rcases List.mem_append.mp hy with h | h
    · simpa using hpre y h
    · simpa using hpost y h
  · intro hall
    have hrf : removeFirst i st.todos = none :=
      (removeFirst_eq_none_iff i st.todos).mpr hall
    simp [TodoList.remove_item, hrf]

/-- C4 amended, witness: on the two-item state with ids 1 and 2 —
removing id 1 keeps exactly the other item and a subsequent lookup is
absent; removing the absent id 9 changes nothing and returns false. -/
theorem remove_item_spec_witness :
    ((∃ x ∈ [sampleA, sampleB], x.id = (1 : Int)) →
      ∃ pre x post, [sampleA, sampleB] = pre ++ x :: post ∧ x.id = 1 ∧
        TodoList.remove_item { todos := [sampleA, sampleB], next_id := 3 } 1 =
          (true, { todos := pre ++ post, next_id := 3 }) ∧
        (TodoList.remove_item { todos := [sampleA, sampleB], next_id := 3 } 1).2.get_item 1 =
          none) ∧
    ((∀ x ∈ [sampleA, sampleB], x.id ≠ (1 : Int)) →
      TodoList.remove_item { todos := [sampleA, sampleB], next_id := 3 } 1 =
        (false, { todos := [sampleA, sampleB], next_id := 3 })) :=
  remove_item_spec { todos := [sampleA, sampleB], next_id := 3 } 1 (by decide)

/-- C5: `complete_item` is idempotent on any state containing the id: the
first call returns true, a second call returns true and leaves the state
exactly as after the first call; the state after the first call has the
same `next_id` and is the original sequence with just the first matching
item's `completed` flag set to true — its other fields and all other
items unchanged, in order. -/
theorem complete_item_idempotent (st : TodoList) (i : Int)
    (h : ∃ x ∈ st.todos, x.id = i) :
    (st.complete_item i).1 = true ∧
    ((st.complete_item i).2.complete_item i).1 = true ∧
    ((st.complete_item i).2.complete_item i).2 = (st.complete_item i).2 ∧
    (st.complete_item i).2.next_id = st.next_id ∧
    ∃ pre x post, st.todos = pre ++ x :: post ∧ (∀ y ∈ pre, y.id ≠ i) ∧ x.id = i ∧
      (st.complete_item i).2.todos = pre ++ { x with completed := true } :: post := by
  rcases exists_first_decomp i st.todos h with ⟨pre, x, post, hsplit, hpre, hx⟩
  have hcf : completeFirst i st.todos =
      some (pre ++ { x with completed := true } :: post) := by
    rw [hsplit]; exact completeFirst_first_match i pre post x hpre hx
  have hc1 : st.complete_item i =
      (true, { todos := pre ++ { x with completed := true } :: post
               next_id := st.next_id }) := by
    simp [TodoList.complete_item, hcf]
  have hx' : ({ x with completed := true } : TodoItem).id = i := hx
  have hcf2 : completeFirst i (pre ++ { x with completed := true } :: post) =
      some (pre ++ { x with completed := true } :: post) :=
    completeFirst_first_match i pre post { x with completed := true } hpre hx'
  have hc2 : (st.complete_item i).2.complete_item i = (true, (st.complete_item i).2) := by
    rw [hc1]
    simp [TodoList.complete_item, hcf2]
  exact ⟨by rw [hc1], by rw [hc2], by rw [hc2], by rw [hc1],
    pre, x, post, hsplit, hpre, hx, by rw [hc1]⟩

/-- C5 witness: completing id 1 twice on a concrete two-item state. -/
theorem complete_item_idempotent_witness :
    (TodoList.complete_item { todos := [sampleA, sampleB], next_id := 3 } 1).1 = true ∧
    ((TodoList.complete_item { todos := [sampleA, sampleB], next_id := 3 } 1).2.complete_item
        1).1 = true ∧
    ((TodoList.complete_item { todos := [sampleA, sampleB], next_id := 3 } 1).2.complete_item
        1).2 = (TodoList.complete_item { todos := [sampleA, sampleB], next_id := 3 } 1).2 ∧
    (TodoList.complete_item { todos := [sampleA, sampleB], next_id := 3 } 1).2.next_id = 3 ∧
    ∃ pre x post, [sampleA, sampleB] = pre ++ x :: post ∧
      (∀ y ∈ pre, y.id ≠ (1 : Int)) ∧ x.id = 1 ∧
      (TodoList.complete_item { todos := [sampleA, sampleB], next_id := 3 } 1).2.todos =
        pre ++ { x with completed := true } :: post :=
  complete_item_idempotent { todos := [sampleA, sampleB], next_id := 3 } 1 (by decide)

/-- C10: when the sequence splits as `pre ++ x :: post` with no match for
the id in `pre` and `x` matching — in particular when later items of
`post` carry the same id, a state reachable only by loading a store with
duplicate ids, since `load_data` validates neither uniqueness nor
`next_id` consistency — `get_item` returns `x` (the first match),
`complete_item` completes only `x`, and `remove_item` removes only `x`;
the items of `post`, later duplicates included, are untouched. -/
theorem first_match_semantics (st : TodoList) (i : Int)
    (pre post : List TodoItem) (x : TodoItem)
    (hsplit : st.todos = pre ++ x :: post)
    (hpre : ∀ y ∈ pre, y.id ≠ i) (hx : x.id = i) :
    st.get_item i = some x ∧
    st.complete_item i =
      (true, { todos := pre ++ { x with completed := true } :: post
               next_id := st.next_id }) ∧
    st.remove_item i = (true, { todos := pre ++ post, next_id := st.next_id }) := by
  refine ⟨?_, ?_, ?_⟩
  · simp only [TodoList.get_item, hsplit]
    exact find?_first_match i post x hx pre hpre
  · have hcf := completeFirst_first_match i pre post x hpre hx
    simp [TodoList.complete_item, hsplit, hcf]
  · have hrf := removeFirst_first_match i pre post x hpre hx
    simp [TodoList.remove_item, hsplit, hrf]

/-- C10 witness: a store with two records of id 1 loads without any
uniqueness validation, and on the loaded state `get_item`,
`complete_item` and `remove_item` all act on the first of the two
duplicates only. -/
theorem first_match_semantics_witness :
    load_data (Store.parsed
        { todos? := some [sampleA.to_dict, sampleDup.to_dict], next_id? := some 2 }) =
      .ok { todos := [sampleA, sampleDup], next_id := 2 } ∧
    TodoList.get_item { todos := [sampleA, sampleDup], next_id := 2 } 1 = some sampleA ∧
    TodoList.complete_item { todos := [sampleA, sampleDup], next_id := 2 } 1 =
      (true, { todos := { sampleA with completed := true } :: [sampleDup], next_id := 2 }) ∧
    TodoList.remove_item { todos := [sampleA, sampleDup], next_id := 2 } 1 =
      (true, { todos := [sampleDup], next_id := 2 }) := by
  refine ⟨rfl, ?_⟩
  have h := first_match_semantics { todos := [sampleA, sampleDup], next_id := 2 } 1
    [] [sampleDup] sampleA rfl (by simp) rfl
  exact h

/-- C9: the rendering `__str__` is partial in the priority field: it
produces a string exactly when the priority is 1, 2 or 3, and for any
other priority value — such values are constructible, since `from_dict`
does not validate the stored priority integer — it raises the lookup
error `KeyError` on the priority map instead of producing a line. -/
theorem str_priority_lookup (it : TodoItem) :
    (it.priority = 1 ∨ it.priority = 2 ∨ it.priority = 3 → it.str.isOk = true) ∧
    (it.str.isOk = true → it.priority = 1 ∨ it.priority = 2 ∨ it.priority = 3) ∧
    (it.priority ≠ 1 → it.priority ≠ 2 → it.priority ≠ 3 →
      it.str = .error (.keyErrorInt it.priority)) := by
  have herr : it.priority ≠ 1 → it.priority ≠ 2 → it.priority ≠ 3 →
      it.str = .error (.keyErrorInt it.priority) := by
    intro h1 h2 h3
    simp [TodoItem.str, priority_map, h1, h2, h3]
  refine ⟨?_, ?_, herr⟩
  · intro h
    rcases h with h | h | h <;>
      simp [TodoItem.str, priority_map, h, Except.isOk, Except.toBool]
  · intro hok
    by_cases h1 : it.priority = 1
    · exact Or.inl h1
    by_cases h2 : it.priority = 2
    · exact Or.inr (Or.inl h2)
    by_cases h3 : it.priority = 3
    · exact Or.inr (Or.inr h3)
    rw [herr h1 h2 h3] at hok
    simp [Except.isOk, Except.toBool] at hok

/-- C9 witness: `from_dict` accepts a stored priority of 7 without
validation, rendering that item raises `KeyError` on the priority map,
and rendering an in-range item succeeds. -/
theorem str_priority_lookup_witness :
    TodoItem.from_dict
        { id? := some 1, title? := some "t", description? := none
          due_date? := none, priority? := some 7, completed? := none } =
      .ok { id := 1, title := "t", description := "", due_date := none
            priority := 7, completed := false } ∧
    TodoItem.str { id := 1, title := "t", description := "", due_date := none
                   priority := 7, completed := false } =
      .error (.keyErrorInt 7) ∧
    (TodoItem.str sampleA).isOk = true :=
  ⟨rfl,
   (str_priority_lookup
     { id := 1, title := "t", description := "", due_date := none
       priority := 7, completed := false }).2.2 (by decide) (by decide) (by decide),
   (str_priority_lookup sampleA).1 (by decide)⟩

end Todo
